import Mathlib

/-!
A verification model of the test-execution engine in src/driver/runner.ts
(the Runner class of the rover exercise validator, a vendored mocha runner).

The runner walks a tree of suites containing tests and hooks, sequences
hooks and tests through chained continuations, applies retry, bail, grep
and abort policy, and emits a lifecycle event stream. This file gives a
shallow embedding of that state machine: the suite tree is a rose tree,
tests live in a store indexed by numeric id (mirroring JS object identity),
the scheduler is a fuel-indexed structural interpreter producing a final
runner state plus the value handed to each continuation, and the event
stream is an explicit list. The modules runnable.ts, suite.ts, test.ts are
not part of the sources; the small interfaces the runner needs from them
(body execution outcomes, the pending flag chain, clone, full titles) are
modelled from the spec where noted.
-/

namespace Rover

/-- Modelled from the spec: the outcome of executing a hook body
(runnable.ts is not under src). A hook body either completes normally,
fails with an ordinary error delivered to the completion callback, or
raises the conditional-skip signal, which sets the hook pending flag and
completes without an error. -/
inductive HookOutcome where
  | ok
  | herr
  | hskip
deriving DecidableEq, Repr

/-- Modelled from the spec: the outcome of executing a test body at one
attempt, after normalizing the three completion conventions into one
signal: pass, ordinary error, or conditional skip (which marks the test
pending). -/
inductive TestOutcome where
  | tpass
  | terr
  | tskip
deriving DecidableEq, Repr

/-- Runnable result state, per STATE_PASSED / STATE_FAILED / STATE_PENDING
in suite constants. -/
inductive TState where
  | passed
  | failed
  | pending
deriving DecidableEq, Repr

/-- The four hook kinds of a suite. -/
inductive HKind where
  | beforeAll
  | beforeEach
  | afterEach
  | afterAll
deriving DecidableEq, Repr

/-- A test entity. Tests live in a store indexed by tid, mirroring JS
object identity. behaviors lists the body outcome per attempt, indexed by
currentRetry; attempts beyond the list pass. spath is the path of the
owning suite from the root. retriedFrom is the back reference a retry
clone keeps to the test it was ultimately cloned from (modelled from the
spec, test.ts is not under src). pending, tstate and currentRetry are the
mutable Runnable fields the runner reads and writes. -/
structure TestM where
  tid : Nat
  title : String
  behaviors : List TestOutcome
  retries : Nat
  currentRetry : Nat := 0
  spath : List Nat := []
  pending : Bool := false
  tstate : Option TState := none
  retriedFrom : Option Nat := none
deriving DecidableEq, Repr

/-- A suite node: title, bail flag, pending flag, the four hook lists
(each hook given by its body outcome), the ordered test id list and the
ordered child suites. -/
structure SuiteM where
  title : String
  bail : Bool := false
  spending : Bool := false
  beforeAllH : List HookOutcome := []
  beforeEachH : List HookOutcome := []
  afterEachH : List HookOutcome := []
  afterAllH : List HookOutcome := []
  tests : List Nat := []
  suites : List SuiteM := []

/-- A path from the root suite to a descendant suite: the child index at
each level. The runner keeps a current-suite pointer; here it is a path. -/
abbrev Path := List Nat

/-- Look up a test by id in the store, as the JS code follows an object
reference. -/
def getTest (store : List TestM) (tid : Nat) : Option TestM :=
  store.find? (fun t => t.tid == tid)

/-- Update the test with the given id in the store. -/
def updTest (store : List TestM) (tid : Nat) (f : TestM → TestM) : List TestM :=
  store.map (fun t => if t.tid == tid then f t else t)

/-- The suite reached by following a path from the given root. -/
def getSuite : SuiteM → Path → Option SuiteM
  | s, [] => some s
  | s, i :: p =>
    match s.suites[i]? with
    | none => none
    | some c => getSuite c p

/-- Apply a function to the suite at the given path, leaving the rest of
the tree unchanged. -/
def updateSuite : SuiteM → Path → (SuiteM → SuiteM) → SuiteM
  | s, [], f => f s
  | s, i :: p, f =>
    match s.suites[i]? with
    | none => s
    | some c => { s with suites := s.suites.set i (updateSuite c p f) }

/-- Titles of the suites along a path, excluding the root suite, in order
from the top: the title path of the suite at the path (modelled from the
spec, suite.ts is not under src: full titles join the non-root suite
titles and the test title with spaces). -/
def prefTitles (s : SuiteM) : Path → List String
  | [] => []
  | i :: p =>
    match s.suites[i]? with
    | none => []
    | some c => c.title :: prefTitles c p

/-- Whether any suite along the path, the root included, has its pending
flag set. Modelled from the spec: a Runnable is pending when its own flag
is set or any ancestor suite is pending. -/
def chainPending (s : SuiteM) : Path → Bool
  | [] => s.spending
  | i :: p =>
    s.spending ||
      match s.suites[i]? with
      | none => false
      | some c => chainPending c p

/-- The full title of a test: its title-path prefix joined with its own
title by spaces. -/
def joinTitle (pref : List String) (t : String) : String :=
  String.intercalate " " (pref ++ [t])

/-- Depth-first worklist traversal collecting the full titles of every
test under the suites on the worklist (each paired with its title path):
own tests first, then the child suites, then the rest of the worklist,
mirroring the visit order of Suite.eachTest. The fuel argument keeps the
recursion structural; any fuel larger than the number of suites in the
tree is enough. -/
def suiteTitlesAux (store : List TestM) : Nat → List (SuiteM × List String) → List String
  | 0, _ => []
  | _, [] => []
  | fuel + 1, (s, pref) :: rest =>
    s.tests.filterMap (fun id => (getTest store id).map (fun t => joinTitle pref t.title))
      ++ suiteTitlesAux store fuel
          ((s.suites.map (fun c => (c, pref ++ [c.title]))) ++ rest)

/-- Full titles of every test in the subtree of a suite whose title path
is pref. -/
def suiteTestTitles (store : List TestM) (fuel : Nat) (s : SuiteM) (pref : List String) : List String :=
  suiteTitlesAux store fuel [(s, pref)]

/-- Number of tests in the subtree whose full title passes the grep
predicate, as Runner.grepTotal computes by a depth-first scan. -/
def grepTotal (m : String → Bool) (store : List TestM) (fuel : Nat) (pref : List String) (s : SuiteM) : Nat :=
  (suiteTestTitles store fuel s pref).countP m

/-- The lifecycle event stream. Test events carry the test id (the JS
events carry the test object itself); suite and hook events carry the
suite title, hook events also their kind and index. failT is the typed
fail event emitted for a test, failH the one emitted for a hook. -/
inductive Ev where
  | runBegin
  | runEnd
  | suiteBegin (t : String)
  | suiteEnd (t : String)
  | testBegin (id : Nat)
  | testEnd (id : Nat)
  | passE (id : Nat)
  | failT (id : Nat)
  | pendE (id : Nat)
  | retryE (id : Nat)
  | hookBegin (k : HKind) (s : String) (i : Nat)
  | hookEnd (k : HKind) (s : String) (i : Nat)
  | failH (k : HKind) (s : String) (i : Nat)
deriving DecidableEq, Repr

def Ev.isPendE : Ev → Bool
  | .pendE _ => true
  | _ => false

def Ev.isTestBegin : Ev → Bool
  | .testBegin _ => true
  | _ => false

def Ev.isFailT : Ev → Bool
  | .failT _ => true
  | _ => false

def Ev.isRetryE : Ev → Bool
  | .retryE _ => true
  | _ => false

def Ev.isHookEv : Ev → Bool
  | .hookBegin _ _ _ => true
  | .hookEnd _ _ _ => true
  | .failH _ _ _ => true
  | _ => false

/-- Runner options relevant to the scheduler: the installed grep predicate
over full titles (the invert flag already folded in), and the failZero,
forbidPending and dryRun flags. -/
structure RConfig where
  grepMatch : String → Bool
  failZero : Bool := false
  forbidPending : Bool := false
  dryRun : Bool := false

/-- The mutable runner state: the suite tree (mutated by pending marking
and retry slot replacement), the test store, the current-suite pointer
(runner.suite), the current test (runner.test), the failure counter, the
cooperative abort flag, the emitted event list, and the id counter for
retry clones. -/
structure RState where
  root : SuiteM
  store : List TestM
  cur : Path := []
  curT : Option Nat := none
  failures : Nat := 0
  abortFlag : Bool := false
  events : List Ev := []
  nextId : Nat := 0

def emit (st : RState) (e : Ev) : RState :=
  { st with events := st.events ++ [e] }

def suiteAt (st : RState) : Option SuiteM :=
  getSuite st.root st.cur

def suiteTitleAt (st : RState) : String :=
  (suiteAt st).elim "" (fun s => s.title)

/-- Whether the test is pending: its own flag or an ancestor suite flag. -/
def isPendingT (st : RState) (tid : Nat) : Bool :=
  match getTest st.store tid with
  | none => false
  | some t => t.pending || chainPending st.root t.spath

def pendingFlag (store : List TestM) (tid : Nat) : Bool :=
  (getTest store tid).elim false (fun t => t.pending)

def stateOf (store : List TestM) (tid : Nat) : Option TState :=
  (getTest store tid).elim none (fun t => t.tstate)

/-! ### The fail routine

Runner.fail in isolation (src/driver/runner.ts lines 450-482). Thrown
values are abstracted to whether they are Error instances (possibly with
the MULTIPLE_DONE code) or duck-typed errors carrying a string message;
isError and thrown2Error (lines 1248-1266) become isErrorV and
thrown2ErrorV. -/

/-- A thrown JS value as the fail routine inspects it: a real Error
instance (which may carry the MULTIPLE_DONE code), a non-Error object with
a string message field, or any other value. -/
inductive JVal where
  | jsError (multipleDone : Bool)
  | objMsg
  | raw
deriving DecidableEq, Repr

/-- isError: an Error instance or a duck-typed object with a string
message. -/
def isErrorV : JVal → Bool
  | .jsError _ => true
  | .objMsg => true
  | .raw => false

/-- thrown2Error wraps a non-Error thrown value in a fresh Error (which
carries no MULTIPLE_DONE code). -/
def thrown2ErrorV : JVal → JVal :=
  fun _ => .jsError false

def isMultipleDoneV : JVal → Bool
  | .jsError m => m
  | _ => false

/-- Runner lifecycle state: idle, running, stopped. -/
inductive RunPhase where
  | idle
  | running
  | stopped
deriving DecidableEq, Repr

/-- What a call to Runner.fail does. -/
inductive FailRes where
  | noop
  | thrownAsIs
  | thrownFatal
  | recorded (failures : Nat) (tstate : TState) (err : JVal)
deriving DecidableEq, Repr

/-- Model of Runner.fail: given the pending flag of the runnable, the
force flag, the runner phase, the current failure counter and the thrown
value, either do nothing (pending and not forced), throw (after the
stopped state: the error itself when it carries MULTIPLE_DONE, otherwise a
fatal wrapper), or record the failure: increment the counter, set the
runnable state to failed, coerce a non-error value, and emit the typed
fail event with the resulting error. -/
def failModel (pending force : Bool) (phase : RunPhase) (failures : Nat) (err : JVal) : FailRes :=
  if pending && !force then .noop
  else if phase == .stopped then
    if isMultipleDoneV err then .thrownAsIs else .thrownFatal
  else
    .recorded (failures + 1) .failed (if isErrorV err then err else thrown2ErrorV err)

/-- Runner.fail applied to a test during the running phase: the branch the
traversal takes. Increments the counter, sets the test state to failed and
emits the fail event, unless the test is pending and force is false. -/
def failTest (st : RState) (tid : Nat) (force : Bool) : RState :=
  if isPendingT st tid && !force then st
  else
    { st with
      failures := st.failures + 1,
      store := updTest st.store tid (fun t => { t with tstate := some .failed }),
      events := st.events ++ [.failT tid] }

/-- Runner.fail applied to a hook during the running phase: at every call
site in the traversal the hook is not pending, so the counter is
incremented and the fail event emitted. -/
def failHook (st : RState) (k : HKind) (s : String) (i : Nat) : RState :=
  { st with failures := st.failures + 1, events := st.events ++ [.failH k s i] }

/-! ### Hook execution

Runner.hook (lines 492-592) runs the hooks of one kind of the current
suite in order and reports to its continuation: no argument on normal
completion, an error after an ordinary hook failure, and the special
branches of cbHookRun on a conditional skip: an after-each skip marks the
current test pending and continues; a before-each skip marks the current
test pending, emits hook end and aborts the chain with an error; a
before-all skip marks every test and direct child suite of the suite
pending and stops the remaining before-all hooks without an error; any
other kind (after-all) records an unsupported-operation failure and aborts
with the error. -/

def kindHooks : HKind → SuiteM → List HookOutcome
  | .beforeAll, s => s.beforeAllH
  | .beforeEach, s => s.beforeEachH
  | .afterEach, s => s.afterEachH
  | .afterAll, s => s.afterAllH

/-- Mark the current test (runner.test) pending, as the skip branches of
cbHookRun do. -/
def markCurTestPending (st : RState) : RState :=
  match st.curT with
  | none => st
  | some tid =>
    { st with store := updTest st.store tid (fun t => { t with pending := true }) }

/-- The before-all skip branch: mark every test of the current suite and
every direct child suite pending. -/
def markSuitePendingAll (st : RState) : RState :=
  match suiteAt st with
  | none => st
  | some s =>
    let store := s.tests.foldl
      (fun acc id => updTest acc id (fun t => { t with pending := true })) st.store
    let root := updateSuite st.root st.cur
      (fun s2 => { s2 with suites := s2.suites.map (fun c => { c with spending := true }) })
    { st with store := store, root := root }

/-- One iteration chain over a hook list, mirroring the inner next of
Runner.hook. The Bool result is whether the continuation receives an
error. -/
def runHookGo (cfg : RConfig) (kind : HKind) (sname : String) :
    RState → List HookOutcome → Nat → RState × Bool
  | st, [], _ => (st, false)
  | st, h :: rest, i =>
    let st := emit st (.hookBegin kind sname i)
    match h with
    | .ok => runHookGo cfg kind sname (emit st (.hookEnd kind sname i)) rest (i + 1)
    | .herr => (failHook st kind sname i, true)
    | .hskip =>
      match kind with
      | .afterEach =>
        runHookGo cfg kind sname (emit (markCurTestPending st) (.hookEnd kind sname i)) rest (i + 1)
      | .beforeEach =>
        (emit (markCurTestPending st) (.hookEnd kind sname i), true)
      | .beforeAll =>
        (emit (markSuitePendingAll st) (.hookEnd kind sname i), false)
      | .afterAll =>
        (failHook st kind sname i, true)

/-- Runner.hook: run the hooks of the given kind of the current suite. -/
def runHookList (cfg : RConfig) (kind : HKind) (st : RState) : RState × Bool :=
  if cfg.dryRun then (st, false)
  else
    runHookGo cfg kind (suiteTitleAt st) st ((suiteAt st).elim [] (kindHooks kind)) 0

/-- Runner.hooks (lines 603-627): run the hooks of one kind for each suite
of the chain in order, saving the current-suite pointer on entry, pointing
it at each chain suite in turn, and restoring it before handing control
back; on a hook error the continuation also receives the suite whose hook
failed. -/
def hooksChainGo (cfg : RConfig) (kind : HKind) (orig : Path) :
    RState → List Path → RState × Option Path
  | st, [] => ({ st with cur := orig }, none)
  | st, p :: rest =>
    let st := { st with cur := p }
    match runHookList cfg kind st with
    | (st2, true) => ({ st2 with cur := orig }, some p)
    | (st2, false) => hooksChainGo cfg kind orig st2 rest

def hooksChain (cfg : RConfig) (kind : HKind) (st : RState) (chain : List Path) :
    RState × Option Path :=
  hooksChainGo cfg kind st.cur st chain

/-- All ancestor paths of a path, root first: the chains Runner.hookDown
and Runner.hookUp build from the parent pointers. -/
def ancestorPaths (p : Path) : List Path :=
  (List.range (p.length + 1)).map (fun k => p.take k)

/-- Runner.hookDown: before-each hooks from the root down to the current
suite. -/
def hookDownF (cfg : RConfig) (st : RState) : RState × Option Path :=
  hooksChain cfg .beforeEach st (ancestorPaths st.cur)

/-- Runner.hookUp: after-each hooks from the current suite up to the
root. -/
def hookUpF (cfg : RConfig) (st : RState) : RState × Option Path :=
  hooksChain cfg .afterEach st (ancestorPaths st.cur).reverse

def parentPath : Path → Option Path
  | [] => none
  | p => some p.dropLast

/-! ### Test execution

Runner.runTests (lines 710-873) with its inner next and hookErr, and
Runner.runTest. The queue is the slice of the suite test list taken on
entry; retry clones are pushed at its front. The EVENT_TEST_END listener
installed in the constructor (lines 197-207) replaces a retried test by
its clone at the original slot in the parent suite test list; it fires on
every test end emission. -/

/-- Emit EVENT_TEST_END for a test, first running the constructor
listener: when the test carries a retried-from reference that still sits
in the parent suite test list, the clone replaces it in place. -/
def emitTestEnd (st : RState) (tid : Nat) : RState :=
  let st :=
    match getTest st.store tid with
    | some t =>
      match t.retriedFrom with
      | some o =>
        let root2 := updateSuite st.root t.spath
          (fun s => { s with tests := s.tests.map (fun x => if x == o then tid else x) })
        { st with root := root2 }
      | none => st
    | none => st
  emit st (.testEnd tid)

/-- Modelled from the spec: Test.clone produces an independent test
sharing title, body and suite, with fresh state and retry counter, linked
back to the original for slot replacement. The runner then sets the clone
retry counter to one past the failed attempt. -/
def retryClone (t : TestM) (cid : Nat) : TestM :=
  { tid := cid, title := t.title, behaviors := t.behaviors, retries := t.retries,
    currentRetry := t.currentRetry + 1, spath := t.spath, pending := false,
    tstate := none, retriedFrom := some (t.retriedFrom.getD t.tid) }

def cloneTest (st : RState) (t : TestM) : RState × Nat :=
  let cid := st.nextId
  ({ st with store := st.store ++ [retryClone t cid], nextId := cid + 1 }, cid)

/-- The grep test applied to the full title, invert already folded into
the predicate. -/
def testMatches (cfg : RConfig) (st : RState) (t : TestM) : Bool :=
  cfg.grepMatch (joinTitle (prefTitles st.root t.spath) t.title)

/-- The body outcome of the current attempt; under dryRun the body is not
executed and the continuation is invoked without an error. -/
def bodyOutcome (cfg : RConfig) (t : TestM) : TestOutcome :=
  if cfg.dryRun then .tpass else t.behaviors.getD t.currentRetry .tpass

def setTState (st : RState) (tid : Nat) (s : TState) : RState :=
  { st with store := updTest st.store tid (fun t => { t with tstate := some s }) }

def markTestPending (st : RState) (tid : Nat) : RState :=
  { st with store := updTest st.store tid (fun t => { t with pending := true }) }

/-- The pending outcome of a test: under forbidPending a forced failure,
otherwise pending state plus the pending event. -/
def pendingEmit (cfg : RConfig) (st : RState) (tid : Nat) : RState :=
  if cfg.forbidPending then failTest st tid true
  else emit (setTState st tid .pending) (.pendE tid)

/-- The hookErr recovery of runTests: after a before-each or after-each
hook failure in errSuite, run the after-each chain starting from errSuite
itself (or from its parent when the failed hook was itself an after-each),
recursing when those hooks fail too, and finally hand the error suite to
the runTests continuation. -/
def hookErrF (cfg : RConfig) : Nat → RState → Path → Bool → RState × Option Path
  | 0, st, errSuite, _ => (st, some errSuite)
  | fuel + 1, st, errSuite, after =>
    let orig := st.cur
    match if after then parentPath errSuite else some errSuite with
    | none => (st, some errSuite)
    | some tp =>
      match hookUpF cfg { st with cur := tp } with
      | (st2, some es2) => hookErrF cfg fuel { st2 with cur := orig } es2 true
      | (st2, none) => ({ st2 with cur := orig }, some errSuite)

/-- What one queue entry of the runTests loop does next: either the loop
continues with a possibly changed queue and a pending hook error, or
runTests finishes, handing an optional error suite to its continuation. -/
inductive StepRes where
  | fin (r : Option Path)
  | cont (queue : List Nat) (errIn : Option Path)

/-- Processing of the test at the head of the queue: grep filtering,
static pending, before-each chain, body execution with the conditional
skip, retry and failure branches, test end emission and the after-each
chain. -/
def runTestStep (cfg : RConfig) (fuel : Nat) (st : RState) (tid : Nat) (rest : List Nat) :
    RState × StepRes :=
  match getTest st.store tid with
  | none => (st, .fin none)
  | some t =>
    if !testMatches cfg st t then (st, .cont rest none)
    else if isPendingT st tid then
      let st := pendingEmit cfg st tid
      let st := emitTestEnd st tid
      (st, .cont rest none)
    else
      let st := { st with curT := some tid }
      let st := emit st (.testBegin tid)
      match hookDownF cfg st with
      | (st, bErr) =>
        if isPendingT st tid then
          let st := pendingEmit cfg st tid
          let st := emitTestEnd st tid
          let origS := st.cur
          match hookUpF cfg { st with cur := bErr.getD st.cur } with
          | (st, e2) => ({ st with cur := origS }, .cont rest e2)
        else
          match bErr with
          | some es =>
            match hookErrF cfg fuel st es false with
            | (st, r) => (st, .fin r)
          | none =>
            match bodyOutcome cfg t with
            | .tskip =>
              let st := markTestPending st tid
              let st := pendingEmit cfg st tid
              let st := emitTestEnd st tid
              match hookUpF cfg st with
              | (st, e2) => (st, .cont rest e2)
            | .terr =>
              if t.currentRetry < t.retries then
                match cloneTest st t with
                | (st, cid) =>
                  let st := emit st (.retryE tid)
                  match hookUpF cfg st with
                  | (st, e2) => (st, .cont (cid :: rest) e2)
              else
                let st := failTest st tid false
                let st := emitTestEnd st tid
                match hookUpF cfg st with
                | (st, e2) => (st, .cont rest e2)
            | .tpass =>
              let st := setTState st tid .passed
              let st := emit st (.passE tid)
              let st := emitTestEnd st tid
              match hookUpF cfg st with
              | (st, e2) => (st, .cont rest e2)

def bailOf (st : RState) (spath : Path) : Bool :=
  (getSuite st.root spath).elim false (fun s => s.bail)

def testsOf (st : RState) (spath : Path) : List Nat :=
  (getSuite st.root spath).elim [] (fun s => s.tests)

/-- The next loop of Runner.runTests: on every entry drain the queue when
a failure was recorded under a bailing suite, then check the abort flag,
then handle a pending hook error through hookErr, then pop and process the
next test. -/
def runTestsF (cfg : RConfig) : Nat → RState → Path → List Nat → Option Path →
    RState × Option Path
  | 0, st, _, _, _ => (st, none)
  | fuel + 1, st, spath, queue, errIn =>
    let queue := if st.failures != 0 && bailOf st spath then [] else queue
    if st.abortFlag then (st, none)
    else
      match errIn with
      | some es => hookErrF cfg fuel st es true
      | none =>
        match queue with
        | [] => (st, none)
        | tid :: rest =>
          match runTestStep cfg fuel st tid rest with
          | (st, .fin r) => (st, r)
          | (st, .cont q e) => runTestsF cfg fuel st spath q e

/-! ### Suite traversal and the run

Runner.runSuite (lines 882-948) and Runner.run (lines 1051-1113). The
traversal of one suite and the loop over its child suites are the two
modes of one fuel-indexed job interpreter so that the recursion stays
structural. -/

inductive Job where
  | suite (spath : Path)
  | children (spath : Path) (i : Nat)

/-- The done continuation of runSuite: restore the current-suite pointer,
drop the current-test reference, run the after-all hooks regardless of the
outcome, emit suite end and pass the optional error suite up. -/
def doneF (cfg : RConfig) (st : RState) (spath : Path) (e : Option Path) :
    RState × Option Path :=
  let st := { st with cur := spath, curT := none }
  match runHookList cfg .afterAll st with
  | (st, _) => (emit st (.suiteEnd (suiteTitleAt st)), e)

/-- Runner.runSuite: skip the suite when no test under it matches the grep
or when a failure was already recorded and the suite bails; otherwise emit
suite begin, run the before-all hooks (on error skip straight to done),
run the tests, then the child suites in order, stopping early on abort or
when an error suite surfaces from below, and always finish through done.
An error suite equal to the suite itself is absorbed; one from an ancestor
propagates further up. -/
def runJob (cfg : RConfig) : Nat → RState → Job → RState × Option Path
  | 0, st, _ => (st, none)
  | fuel + 1, st, .suite spath =>
    match getSuite st.root spath with
    | none => (st, none)
    | some s =>
      if grepTotal cfg.grepMatch st.store fuel (prefTitles st.root spath) s == 0
          || (st.failures != 0 && s.bail) then (st, none)
      else
        let st := { st with cur := spath }
        let st := emit st (.suiteBegin s.title)
        match runHookList cfg .beforeAll st with
        | (st, true) => doneF cfg st spath none
        | (st, false) =>
          match runTestsF cfg fuel st spath (testsOf st spath) none with
          | (st, some es) =>
            if es = spath then doneF cfg st spath none else doneF cfg st spath (some es)
          | (st, none) => runJob cfg fuel st (.children spath 0)
  | fuel + 1, st, .children spath i =>
    if st.abortFlag then doneF cfg st spath none
    else
      match (getSuite st.root spath).bind (fun s => s.suites[i]?) with
      | none => doneF cfg st spath none
      | some _ =>
        match runJob cfg fuel st (.suite (spath ++ [i])) with
        | (st, some es) =>
          if es = spath then doneF cfg st spath none else doneF cfg st spath (some es)
        | (st, none) => runJob cfg fuel st (.children spath (i + 1))

def initState (root : SuiteM) (store : List TestM) : RState :=
  { root := root, store := store, cur := [], curT := none, failures := 0,
    abortFlag := false, events := [],
    nextId := store.foldr (fun t m => max m (t.tid + 1)) 0 }

/-- Runner.run on a tree with no exclusive markers and no delay: emit run
begin, traverse the root suite, then in the end continuation set the
failure counter to one when the grep total is zero and failZero is set,
and emit run end; the run-end listener passes the final counter to the
completion callback, which is the second component. -/
def runF (cfg : RConfig) (fuel : Nat) (root : SuiteM) (store : List TestM) :
    RState × Nat :=
  let total := grepTotal cfg.grepMatch store fuel [] root
  let st := emit (initState root store) .runBegin
  match runJob cfg (fuel + 1) st (.suite []) with
  | (st, _) =>
    let failures := if total == 0 && cfg.failZero then 1 else st.failures
    (emit { st with failures := failures } .runEnd, failures)

/-! ### Global-leak checking

Runner.checkGlobals (lines 400-427) and filterLeaks (lines 1205-1238).
The ambient global names are an input list; the browser-dependent guards
take the presence of a navigator object as a flag. -/

def startsWithDigit (key : String) : Bool :=
  match key.toList with
  | c :: _ => c.isDigit
  | [] => false

/-- Prefix test on character lists (the regex caret tests and indexOf
prefix test of filterLeaks). -/
def listStarts : List Char → List Char → Bool
  | [], _ => true
  | _ :: _, [] => false
  | p :: ps, c :: cs => p == c && listStarts ps cs

/-- Whether the allow-list entry carries a star wildcard. -/
def containsStar : List Char → Bool
  | [] => false
  | c :: cs => c == '*' || containsStar cs

/-- The characters before the first star: split on star and take the
head. -/
def takeUntilStar : List Char → List Char
  | [] => []
  | c :: cs => if c == '*' then [] else c :: takeUntilStar cs

/-- filterLeaks: drop iframe indices, getInterface artifacts under a
navigator, names starting with mocha-, names matched by the allow list
(with trailing-star prefix matching), and onerror under a navigator;
everything else is a leak. -/
def filterLeaks (navigator : Bool) (ok globals : List String) : List String :=
  globals.filter (fun key =>
    if startsWithDigit key then false
    else if navigator && listStarts "getInterface".toList key.toList then false
    else if navigator && startsWithDigit key then false
    else if listStarts "mocha-".toList key.toList then false
    else
      let matched := ok.filter (fun okv =>
        if containsStar okv.toList then listStarts (takeUntilStar okv.toList) key.toList
        else key == okv)
      matched.isEmpty && (!navigator || key != "onerror"))

/-- The leak-checking state owned by the runner: the accumulated allowed
globals, the global count recorded at the previous check, the failure
counter, and the reported leak name lists. -/
structure GlobState where
  okGlobals : List String
  prev : Option Nat := none
  failures : Nat := 0
  leakReports : List (List String) := []
deriving DecidableEq, Repr

/-- Runner.checkGlobals for a present runnable: do nothing unless leak
checking is on; extend the allowed list with the runnable allowances;
return early when the ambient count equals the previously recorded count;
otherwise record the count, compute the leaks, fold them into the baseline
and report a failure naming them when any remain. -/
def checkGlobalsM (checkLeaks navigator : Bool) (gs : GlobState)
    (testAllowed currentGlobals : List String) : GlobState :=
  if !checkLeaks then gs
  else
    let ok := gs.okGlobals ++ testAllowed
    if gs.prev == some currentGlobals.length then gs
    else
      let gs := { gs with prev := some currentGlobals.length }
      let leaks := filterLeaks navigator ok currentGlobals
      let gs := { gs with okGlobals := gs.okGlobals ++ leaks }
      if leaks.isEmpty then gs
      else { gs with failures := gs.failures + 1, leakReports := gs.leakReports ++ [leaks] }

/-! ### Derived predicates and concrete scenario inputs -/

/-- Whether the event is the begin event of a hook of the named suite. -/
def Ev.hookBeginOf (s : String) : Ev → Bool
  | .hookBegin _ s2 _ => s2 == s
  | _ => false

/-- The frequently used configuration: grep matching everything, all
options off. -/
def cfgAll : RConfig := { grepMatch := fun _ => true }

/-- A test with the given id, title, per-attempt behaviors, retry budget
and suite path, in the unrun state. -/
def mkTest (tid : Nat) (title : String) (behaviors : List TestOutcome)
    (retries : Nat) (spath : Path) : TestM :=
  { tid := tid, title := title, behaviors := behaviors, retries := retries,
    currentRetry := 0, spath := spath, pending := false, tstate := none,
    retriedFrom := none }

/-- Scenario for C1: a suite with a before-all hook that fails with an
ordinary error, two tests, an after-all hook and a child suite with one
test. -/
def storeBA : List TestM :=
  [mkTest 0 "a" [] 0 [0], mkTest 1 "b" [] 0 [0], mkTest 2 "c" [] 0 [0, 0]]

def rootBA : SuiteM :=
  { title := "",
    suites := [ { title := "s", beforeAllH := [.herr], afterAllH := [.ok],
                  tests := [0, 1],
                  suites := [ { title := "c", tests := [2], suites := [] } ] } ] }

/-- Scenario C of the spec: one test with retries 2 failing on the first
two attempts and passing on the third, directly under the root. -/
def storeRetry : List TestM :=
  [mkTest 0 "t" [.terr, .terr, .tpass] 2 []]

def rootOne : SuiteM := { title := "", tests := [0], suites := [] }

/-- Scenario D of the spec: bail set everywhere, the only test of the
first of two suites fails. -/
def storeBail : List TestM :=
  [mkTest 0 "x" [.terr] 0 [0], mkTest 1 "y" [] 0 [1]]

def rootBail : SuiteM :=
  { title := "", bail := true,
    suites := [ { title := "s1", bail := true, afterEachH := [.ok],
                  afterAllH := [.ok], tests := [0], suites := [] },
                { title := "s2", bail := true, tests := [1], suites := [] } ] }

/-- A single test whose body raises the conditional skip. -/
def storeSkip : List TestM :=
  [mkTest 0 "t" [.tskip] 0 []]

/-- Scenario E shape: an outer suite with hooks whose own test does not
match the grep, with a child suite holding the matching test. -/
def storeGrep : List TestM :=
  [mkTest 0 "alpha" [] 0 [0], mkTest 1 "beta" [] 0 [0, 0]]

def rootGrep : SuiteM :=
  { title := "",
    suites := [ { title := "out", beforeAllH := [.ok], beforeEachH := [.ok],
                  afterAllH := [.ok], tests := [0],
                  suites := [ { title := "in", tests := [1], suites := [] } ] } ] }

def cfgGrep : RConfig := { grepMatch := fun s => s == "out in beta" }

/-- Three tests under the root; the middle one fails once and passes on
its retry. -/
def storeSlot : List TestM :=
  [mkTest 0 "p" [] 0 [], mkTest 1 "q" [.terr, .tpass] 1 [], mkTest 2 "r" [] 0 []]

def rootSlot : SuiteM := { title := "", tests := [0, 1, 2], suites := [] }

/-- A root whose single before-each hook fails, for exercising the hook
chain. -/
def rootHookErr : SuiteM := { title := "", beforeEachH := [.herr], tests := [], suites := [] }

/-- A grep matching nothing. -/
def cfgNone : RConfig := { grepMatch := fun _ => false }

/-- A grep matching nothing with the failZero option set. -/
def cfgFailZero : RConfig := { grepMatch := fun _ => false, failZero := true }

/-- The root test list after a test ends: when the test carries a
retried-from reference, the reference is replaced by the test in the root
suite test list (the slot replacement for tests that sit directly under
the root). -/
def slotRoot (root : SuiteM) (rf : Option Nat) (tid : Nat) : SuiteM :=
  match rf with
  | none => root
  | some o => { root with tests := root.tests.map (fun x => if x == o then tid else x) }

/-- A retry clone of the middle test of the slot scenario, used as a
concrete input for the end listener. -/
def cloneW : TestM :=
  { mkTest 3 "q" [.terr, .tpass] 1 [] with currentRetry := 1, retriedFrom := some 1 }

/-! ## Lemmas and claim theorems -/

lemma hooksChainGo_cur (cfg : RConfig) (k : HKind) (orig : Path) :
    ∀ (l : List Path) (st : RState), (hooksChainGo cfg k orig st l).1.cur = orig := by
  intro l
  induction l with
  | nil => intro st; simp [hooksChainGo]
  | cons p rest ih =>
    intro st
    simp only [hooksChainGo]
    split
    · simp
    · exact ih _

lemma hooksChainGo_err_mem (cfg : RConfig) (k : HKind) (orig p : Path) :
    ∀ (l : List Path) (st : RState),
      (hooksChainGo cfg k orig st l).2 = some p → p ∈ l := by
  intro l
  induction l with
  | nil => intro st h; simp [hooksChainGo] at h
  | cons q rest ih =>
    intro st h
    simp only [hooksChainGo] at h
    split at h
    · simp at h
      simp [h]
    · exact List.mem_cons_of_mem _ (ih _ h)

/-- Claim C9: hooks restores the current-suite pointer of the runner to
the value it had on entry before invoking the continuation, both when
every hook of the chain completes and when a hook fails; in the failure
case the continuation receives a suite of the chain (the one whose hook
failed). -/
theorem claim_C9_thm (cfg : RConfig) (k : HKind) (st : RState) (chain : List Path) :
    (hooksChain cfg k st chain).1.cur = st.cur
    ∧ ∀ p, (hooksChain cfg k st chain).2 = some p → p ∈ chain := by
  constructor
  · exact hooksChainGo_cur cfg k st.cur chain st
  · intro p h
    exact hooksChainGo_err_mem cfg k st.cur p chain st h

/-- Witness for C9 at a concrete failing chain: the root suite has a
failing before-each hook, the chain is the single root path; the pointer
is restored and the error suite is a member of the chain. -/
theorem claim_C9_wit :
    (hooksChain cfgAll .beforeEach (initState rootHookErr []) [[]]).1.cur
        = (initState rootHookErr []).cur
      ∧ ([] : Path) ∈ [([] : Path)] := by
  refine ⟨(claim_C9_thm cfgAll .beforeEach (initState rootHookErr []) [[]]).1, ?_⟩
  exact (claim_C9_thm cfgAll .beforeEach (initState rootHookErr []) [[]]).2 [] (by decide)

/-- Claim C10: with leak checking enabled, checkGlobals reports a leak
only when the ambient global count differs from the count recorded at the
previous check: whenever the previous count equals the current count the
state is returned unchanged and no failure is raised, so a name swap that
keeps the count constant is not flagged; when the count does differ, a new
unallowed name is reported as a failure naming it. -/
theorem claim_C10_thm :
    (∀ (nav : Bool) (gs : GlobState) (ta cg : List String),
        gs.prev = some cg.length →
        checkGlobalsM true nav gs ta cg = gs)
    ∧ checkGlobalsM true false
        { okGlobals := ["a", "b", "c"], prev := some 3 } [] ["a", "b", "newName"]
        = { okGlobals := ["a", "b", "c"], prev := some 3 }
    ∧ checkGlobalsM true false
        { okGlobals := ["a"], prev := some 1 } [] ["a", "leakedVar"]
        = { okGlobals := ["a", "leakedVar"], prev := some 2, failures := 1,
            leakReports := [["leakedVar"]] } := by
  refine ⟨?_, by decide, by decide⟩
  intro nav gs ta cg h
  simp [checkGlobalsM, h]

/-- Witness for C10: the general early return applied at a concrete state
where one global disappeared and another appeared with the count
unchanged. -/
theorem claim_C10_wit :
    checkGlobalsM true true { okGlobals := ["x", "y"], prev := some 2 } []
        ["x", "fresh"]
      = { okGlobals := ["x", "y"], prev := some 2 } :=
  claim_C10_thm.1 true { okGlobals := ["x", "y"], prev := some 2 } []
    ["x", "fresh"] (by decide)

/-- Claim C5: fail does nothing when the runnable is pending and force is
false; otherwise in the running state it increments the failure counter,
sets the runnable state to failed and reports the error, coercing a
non-error thrown value into a typed Error wrapper; invoked after the
stopped state it throws a fatal internal error, except that a
multiple-completion error is thrown as-is. -/
theorem claim_C5_thm :
    (∀ (ph : RunPhase) (n : Nat) (e : JVal), failModel true false ph n e = .noop)
    ∧ (∀ (p f : Bool) (n : Nat) (e : JVal), (p && !f) = false →
        failModel p f .running n e
          = .recorded (n + 1) .failed (if isErrorV e then e else thrown2ErrorV e))
    ∧ (∀ (p f : Bool) (n : Nat), (p && !f) = false →
        failModel p f .running n .raw = .recorded (n + 1) .failed (.jsError false))
    ∧ (∀ (p f : Bool) (n : Nat) (e : JVal), (p && !f) = false →
        isMultipleDoneV e = false → failModel p f .stopped n e = .thrownFatal)
    ∧ (∀ (p f : Bool) (n : Nat), (p && !f) = false →
        failModel p f .stopped n (.jsError true) = .thrownAsIs) := by
  refine ⟨?_, ?_, ?_, ?_, ?_⟩
  · intro ph n e; simp [failModel]
  · intro p f n e h; simp [failModel, h]
  · intro p f n h; simp [failModel, h, isErrorV, thrown2ErrorV]
  · intro p f n e h h2; simp [failModel, h, h2]
  · intro p f n h; simp [failModel, h, isMultipleDoneV]

/-- Witness for C5 at concrete inputs: a pending unforced runnable, a
recorded coerced failure, a fatal throw after stop, and a
multiple-completion error propagated as-is. -/
theorem claim_C5_wit :
    failModel true false .running 7 .raw = .noop
    ∧ failModel false false .running 0 .raw = .recorded 1 .failed (.jsError false)
    ∧ failModel false false .stopped 4 .objMsg = .thrownFatal
    ∧ failModel true true .stopped 4 (.jsError true) = .thrownAsIs :=
  ⟨claim_C5_thm.1 .running 7 .raw,
   claim_C5_thm.2.2.1 false false 0 (by decide),
   claim_C5_thm.2.2.2.1 false false 4 .objMsg (by decide) (by decide),
   claim_C5_thm.2.2.2.2 true true 4 (by decide)⟩

/-! ### Traversal lemmas: grep skipping and bail -/

lemma runJob_grep_zero (cfg : RConfig) (fuel : Nat) (st : RState) (spath : Path)
    (s : SuiteM) (h : getSuite st.root spath = some s)
    (h2 : grepTotal cfg.grepMatch st.store fuel (prefTitles st.root spath) s = 0) :
    runJob cfg (fuel + 1) st (.suite spath) = (st, none) := by
  simp [runJob, h, h2]

lemma runTests_bail_drain (cfg : RConfig) (fuel : Nat) (st : RState) (spath : Path)
    (q : List Nat) (h : st.failures ≠ 0) (h2 : bailOf st spath = true) :
    runTestsF cfg (fuel + 1) st spath q none = (st, none) := by
  simp only [runTestsF, h2, Bool.and_true, bne_iff_ne, ne_eq, h, not_false_eq_true,
    if_true]
  cases habort : st.abortFlag <;> simp

lemma runJob_bail_skip (cfg : RConfig) (fuel : Nat) (st : RState) (spath : Path)
    (s : SuiteM) (h : getSuite st.root spath = some s)
    (hf : st.failures ≠ 0) (hb : s.bail = true) :
    runJob cfg (fuel + 1) st (.suite spath) = (st, none) := by
  simp [runJob, h, hf, hb]

/-- Claim C3: once the failure counter is non-zero and the traversed suite
bails, the runTests loop drains its remaining queue and returns, and
runSuite returns before emitting suite begin; concretely, in scenario D
(bail everywhere, the only test of suite s1 of two fails) the after-each
and after-all hooks of s1 still run, s2 never begins, run end is reached
and the completion callback receives the recorded failure count 1. -/
theorem claim_C3_thm :
    (∀ (cfg : RConfig) (fuel : Nat) (st : RState) (spath : Path) (q : List Nat),
        st.failures ≠ 0 → bailOf st spath = true →
        runTestsF cfg (fuel + 1) st spath q none = (st, none))
    ∧ (∀ (cfg : RConfig) (fuel : Nat) (st : RState) (spath : Path) (s : SuiteM),
        getSuite st.root spath = some s → st.failures ≠ 0 → s.bail = true →
        runJob cfg (fuel + 1) st (.suite spath) = (st, none))
    ∧ ((runF cfgAll 20 rootBail storeBail).2 = 1
        ∧ Ev.suiteBegin "s2" ∉ (runF cfgAll 20 rootBail storeBail).1.events
        ∧ Ev.hookBegin .afterEach "s1" 0 ∈ (runF cfgAll 20 rootBail storeBail).1.events
        ∧ Ev.hookBegin .afterAll "s1" 0 ∈ (runF cfgAll 20 rootBail storeBail).1.events
        ∧ Ev.runEnd ∈ (runF cfgAll 20 rootBail storeBail).1.events
        ∧ (runF cfgAll 20 rootBail storeBail).1.events.countP
            (fun e => e == Ev.testBegin 1) = 0) := by
  refine ⟨?_, ?_, by decide⟩
  · intro cfg fuel st spath q h h2
    exact runTests_bail_drain cfg fuel st spath q h h2
  · intro cfg fuel st spath s h hf hb
    exact runJob_bail_skip cfg fuel st spath s h hf hb

/-- Witness for C3 at concrete inputs: a state with one recorded failure
under the bailing suite s1 of scenario D drains a nonempty queue, and the
suite s2 is skipped without any event. -/
theorem claim_C3_wit :
    runTestsF cfgAll 4
      { initState rootBail storeBail with failures := 1 } [0] [0, 1] none
      = ({ initState rootBail storeBail with failures := 1 }, none)
    ∧ runJob cfgAll 6
      { initState rootBail storeBail with failures := 1 } (.suite [1])
      = ({ initState rootBail storeBail with failures := 1 }, none) := by
  constructor
  · exact claim_C3_thm.1 cfgAll 3
      { initState rootBail storeBail with failures := 1 } [0] [0, 1]
      (by decide) (by decide)
  · exact claim_C3_thm.2.1 cfgAll 5
      { initState rootBail storeBail with failures := 1 } [1]
      { title := "s2", bail := true, tests := [1], suites := [] }
      rfl (by decide) rfl

/-- Claim C7: when the filtered total is zero and failZero is set, the run
completes with exactly one reported failure delivered to the completion
callback although nothing executed: the event stream is just run begin and
run end. -/
theorem claim_C7_thm (cfg : RConfig) (fuel : Nat) (root : SuiteM) (store : List TestM)
    (h : grepTotal cfg.grepMatch store fuel [] root = 0) (hz : cfg.failZero = true) :
    (runF cfg fuel root store).2 = 1
    ∧ (runF cfg fuel root store).1.events = [Ev.runBegin, Ev.runEnd] := by
  have hrun := runJob_grep_zero cfg fuel (emit (initState root store) .runBegin) [] root
    rfl h
  simp only [runF]
  rw [hrun]
  simp [h, hz, emit, initState]

/-- Witness for C7: a grep matching nothing over a one-test tree with
failZero set reports one failure with no test events. -/
theorem claim_C7_wit :
    (runF cfgFailZero 10 rootOne storeRetry).2 = 1
    ∧ (runF cfgFailZero 10 rootOne storeRetry).1.events = [Ev.runBegin, Ev.runEnd] :=
  claim_C7_thm cfgFailZero 10 rootOne storeRetry (by decide) (by decide)

/-- Counterexample to C6 as stated: in the grep scenario (outer suite out
with one non-matching test alpha and a child suite in with the matching
test beta) the claim that none of the hooks of out execute is false: the
before-all hook of out begins. -/
theorem claim_C6_cex :
    cfgGrep.grepMatch "out alpha" = false
    ∧ Ev.hookBegin .beforeAll "out" 0 ∈ (runF cfgGrep 20 rootGrep storeGrep).1.events
    ∧ ¬ ((runF cfgGrep 20 rootGrep storeGrep).1.events.countP
          (Ev.hookBeginOf "out") = 0) := by
  decide

/-- Claim C6 as amended: a suite under which no test matches the grep is
skipped entirely (no events, no hooks, state unchanged); a suite whose own
tests all fail the grep but which has a matching descendant still begins
and runs its hooks, while its non-matching own tests are skipped silently
with no events and are excluded from the grep total, and the nested child
suite with the matching test runs normally. -/
theorem claim_C6_thm :
    (∀ (cfg : RConfig) (fuel : Nat) (st : RState) (spath : Path) (s : SuiteM),
        getSuite st.root spath = some s →
        grepTotal cfg.grepMatch st.store fuel (prefTitles st.root spath) s = 0 →
        runJob cfg (fuel + 1) st (.suite spath) = (st, none))
    ∧ (grepTotal cfgGrep.grepMatch storeGrep 20 [] rootGrep = 1
        ∧ (runF cfgGrep 20 rootGrep storeGrep).1.events.countP
            (fun e => e == Ev.testBegin 0) = 0
        ∧ (runF cfgGrep 20 rootGrep storeGrep).1.events.countP Ev.isPendE = 0
        ∧ Ev.hookBegin .beforeAll "out" 0 ∈ (runF cfgGrep 20 rootGrep storeGrep).1.events
        ∧ Ev.hookBegin .beforeEach "out" 0 ∈ (runF cfgGrep 20 rootGrep storeGrep).1.events
        ∧ Ev.passE 1 ∈ (runF cfgGrep 20 rootGrep storeGrep).1.events
        ∧ Ev.suiteBegin "in" ∈ (runF cfgGrep 20 rootGrep storeGrep).1.events
        ∧ (runF cfgGrep 20 rootGrep storeGrep).2 = 0) := by
  refine ⟨?_, by decide⟩
  intro cfg fuel st spath s h h2
  exact runJob_grep_zero cfg fuel st spath s h h2

/-- Witness for C6: the whole-suite skip applied to a concrete tree whose
tests all fail the grep: the traversal returns the state unchanged. -/
theorem claim_C6_wit :
    runJob cfgNone 8 (initState rootGrep storeGrep) (.suite [0])
      = (initState rootGrep storeGrep, none) :=
  claim_C6_thm.1 cfgNone 7 (initState rootGrep storeGrep) [0]
    { title := "out", beforeAllH := [.ok], beforeEachH := [.ok],
      afterAllH := [.ok], tests := [0],
      suites := [ { title := "in", tests := [1], suites := [] } ] }
    rfl (by decide)

/-! ### Frame lemmas for after-all hook runs and doneF -/

lemma runHookGo_afterAll_frame (cfg : RConfig) (sname : String) :
    ∀ (l : List HookOutcome) (st : RState) (i : Nat),
      ∃ evs k b, runHookGo cfg .afterAll sname st l i
        = ({ st with events := st.events ++ evs, failures := st.failures + k }, b)
        ∧ ∀ e ∈ evs, e.isHookEv = true := by
  intro l
  induction l with
  | nil =>
    intro st i
    exact ⟨[], 0, false, by simp [runHookGo], by simp⟩
  | cons hk rest ih =>
    intro st i
    cases hk with
    | ok =>
      obtain ⟨evs, k, b, heq, hmem⟩ :=
        ih (emit (emit st (.hookBegin .afterAll sname i)) (.hookEnd .afterAll sname i)) (i + 1)
      refine ⟨.hookBegin .afterAll sname i :: .hookEnd .afterAll sname i :: evs, k, b, ?_, ?_⟩
      · simp only [runHookGo, heq]
        simp [emit]
      · intro e he
        rcases List.mem_cons.mp he with rfl | he2
        · simp [Ev.isHookEv]
        rcases List.mem_cons.mp he2 with rfl | he3
        · simp [Ev.isHookEv]
        exact hmem e he3
    | herr =>
      refine ⟨[.hookBegin .afterAll sname i, .failH .afterAll sname i], 1, true, ?_, ?_⟩
      · simp [runHookGo, emit, failHook]
      · intro e he
        simp only [List.mem_cons, List.not_mem_nil, or_false] at he
        rcases he with rfl | rfl <;> simp [Ev.isHookEv]
    | hskip =>
      refine ⟨[.hookBegin .afterAll sname i, .failH .afterAll sname i], 1, true, ?_, ?_⟩
      · simp [runHookGo, emit, failHook]
      · intro e he
        simp only [List.mem_cons, List.not_mem_nil, or_false] at he
        rcases he with rfl | rfl <;> simp [Ev.isHookEv]

lemma doneF_frame (cfg : RConfig) (st : RState) (spath : Path) (e : Option Path)
    (s : SuiteM) (h : getSuite st.root spath = some s) :
    ∃ evs k, doneF cfg st spath e
      = ({ st with
            cur := spath, curT := none,
            events := st.events ++ evs ++ [.suiteEnd s.title],
            failures := st.failures + k }, e)
      ∧ ∀ x ∈ evs, x.isHookEv = true := by
  simp only [doneF, runHookList]
  cases hd : cfg.dryRun with
  | true =>
    refine ⟨[], 0, ?_, by simp⟩
    simp [suiteTitleAt, suiteAt, h, emit]
  | false =>
    obtain ⟨evs, k, b, heq, hmem⟩ :=
      runHookGo_afterAll_frame cfg
        (suiteTitleAt { st with cur := spath, curT := none })
        ((suiteAt { st with cur := spath, curT := none }).elim [] (kindHooks .afterAll))
        { st with cur := spath, curT := none } 0
    refine ⟨evs, k, ?_, hmem⟩
    simp only [Bool.false_eq_true, if_false, heq]
    simp [suiteTitleAt, suiteAt, h, emit]

/-- Counterexample to C1 as stated: a before-all hook failing with an
ordinary error on a suite with two tests and a child suite produces zero
pending signals (not two), marks no test pending, emits zero test-begin
events, and records one failure; the after-all hook still runs and the
child suite is never begun. -/
theorem claim_C1_cex :
    (runF cfgAll 20 rootBA storeBA).1.events.countP Ev.isPendE = 0
    ∧ ¬ ((runF cfgAll 20 rootBA storeBA).1.events.countP Ev.isPendE = 2)
    ∧ (runF cfgAll 20 rootBA storeBA).1.events.countP Ev.isTestBegin = 0
    ∧ pendingFlag (runF cfgAll 20 rootBA storeBA).1.store 0 = false
    ∧ pendingFlag (runF cfgAll 20 rootBA storeBA).1.store 1 = false
    ∧ Ev.hookBegin .afterAll "s" 0 ∈ (runF cfgAll 20 rootBA storeBA).1.events
    ∧ Ev.suiteBegin "c" ∉ (runF cfgAll 20 rootBA storeBA).1.events
    ∧ (runF cfgAll 20 rootBA storeBA).2 = 1 := by
  decide

/-- Claim C1 as amended: when a before-all hook of a suite fails with an
ordinary error, the suite run consists of suite begin, the hook begin and
its fail event, the after-all hook events, and suite end: no test or
child suite runs, nothing is marked pending and no pending signal is
emitted (the store and the tree are unchanged), the failure counter
increments by one for the hook (plus any after-all hook failures), and the
after-all hooks still run before suite end. The marking of every test and
child suite as pending with one pending signal per test belongs to the
conditional-skip signal, not to an ordinary before-all error. -/
theorem claim_C1_thm (cfg : RConfig) (fuel : Nat) (st : RState) (spath : Path)
    (s : SuiteM) (hs : List HookOutcome)
    (hd : cfg.dryRun = false)
    (h : getSuite st.root spath = some s)
    (hba : s.beforeAllH = .herr :: hs)
    (hg : grepTotal cfg.grepMatch st.store fuel (prefTitles st.root spath) s ≠ 0)
    (hbail : st.failures = 0 ∨ s.bail = false) :
    ∃ evs k,
      runJob cfg (fuel + 1) st (.suite spath)
        = ({ st with
              cur := spath, curT := none,
              events := st.events
                ++ [.suiteBegin s.title, .hookBegin .beforeAll s.title 0,
                    .failH .beforeAll s.title 0]
                ++ evs ++ [.suiteEnd s.title],
              failures := st.failures + 1 + k }, none)
      ∧ (∀ x ∈ evs, x.isHookEv = true)
      ∧ (runJob cfg (fuel + 1) st (.suite spath)).1.store = st.store
      ∧ (runJob cfg (fuel + 1) st (.suite spath)).1.root = st.root
      ∧ (runJob cfg (fuel + 1) st (.suite spath)).1.events.countP Ev.isPendE
          = st.events.countP Ev.isPendE
      ∧ (runJob cfg (fuel + 1) st (.suite spath)).1.events.countP Ev.isTestBegin
          = st.events.countP Ev.isTestBegin := by
  have hcond : (grepTotal cfg.grepMatch st.store fuel (prefTitles st.root spath) s == 0
      || (st.failures != 0 && s.bail)) = false := by
    rcases hbail with h0 | hb
    · simp [hg, h0]
    · simp [hg, hb]
  have hhook : runHookList cfg .beforeAll
      (emit { st with cur := spath } (.suiteBegin s.title))
      = (failHook (emit (emit { st with cur := spath } (.suiteBegin s.title))
          (.hookBegin .beforeAll s.title 0)) .beforeAll s.title 0, true) := by
    simp [runHookList, hd, suiteTitleAt, suiteAt, emit, h, kindHooks, hba, runHookGo,
      failHook]
  obtain ⟨evs, k, hdone, hmem⟩ :=
    doneF_frame cfg
      (failHook (emit (emit { st with cur := spath } (.suiteBegin s.title))
        (.hookBegin .beforeAll s.title 0)) .beforeAll s.title 0) spath none s (by
          simp [failHook, emit, h])
  have hmain : runJob cfg (fuel + 1) st (.suite spath)
      = ({ st with
            cur := spath, curT := none,
            events := st.events
              ++ [.suiteBegin s.title, .hookBegin .beforeAll s.title 0,
                  .failH .beforeAll s.title 0]
              ++ evs ++ [.suiteEnd s.title],
            failures := st.failures + 1 + k }, none) := by
    simp only [runJob, h, hcond, Bool.false_eq_true, if_false, hhook, hdone]
    simp [failHook, emit, List.append_assoc]
  have hzero : ∀ x ∈ evs, x.isPendE = false ∧ x.isTestBegin = false := by
    intro x hx
    have := hmem x hx
    cases x <;> simp_all [Ev.isHookEv, Ev.isPendE, Ev.isTestBegin]
  refine ⟨evs, k, hmain, hmem, by rw [hmain], by rw [hmain], ?_, ?_⟩
  · rw [hmain]
    simp only [List.countP_append]
    have h1 : evs.countP Ev.isPendE = 0 :=
      List.countP_eq_zero.mpr (by intro x hx; simp [(hzero x hx).1])
    simp [h1, Ev.isPendE]
  · rw [hmain]
    simp only [List.countP_append]
    have h1 : evs.countP Ev.isTestBegin = 0 :=
      List.countP_eq_zero.mpr (by intro x hx; simp [(hzero x hx).2])
    simp [h1, Ev.isTestBegin]

/-- Witness for C1: the amended theorem applied to the concrete before-all
error scenario. -/
theorem claim_C1_wit :
    ∃ evs k,
      runJob cfgAll 20 (initState rootBA storeBA) (.suite [0])
        = ({ initState rootBA storeBA with
              cur := [0], curT := none,
              events := (initState rootBA storeBA).events
                ++ [.suiteBegin "s", .hookBegin .beforeAll "s" 0,
                    .failH .beforeAll "s" 0]
                ++ evs ++ [.suiteEnd "s"],
              failures := (initState rootBA storeBA).failures + 1 + k }, none)
      ∧ (∀ x ∈ evs, x.isHookEv = true)
      ∧ (runJob cfgAll 20 (initState rootBA storeBA) (.suite [0])).1.store
          = (initState rootBA storeBA).store
      ∧ (runJob cfgAll 20 (initState rootBA storeBA) (.suite [0])).1.root
          = (initState rootBA storeBA).root
      ∧ (runJob cfgAll 20 (initState rootBA storeBA) (.suite [0])).1.events.countP Ev.isPendE
          = (initState rootBA storeBA).events.countP Ev.isPendE
      ∧ (runJob cfgAll 20 (initState rootBA storeBA) (.suite [0])).1.events.countP Ev.isTestBegin
          = (initState rootBA storeBA).events.countP Ev.isTestBegin := by
  have := claim_C1_thm cfgAll 19 (initState rootBA storeBA) [0]
    { title := "s", beforeAllH := [.herr], afterAllH := [.ok],
      tests := [0, 1],
      suites := [ { title := "c", tests := [2], suites := [] } ] }
    [] rfl rfl rfl (by decide) (Or.inl rfl)
  exact this

/-! ### Store and path lemmas -/

lemma getTest_updTest_tstate (s : List TestM) (n : Nat) (x : Option TState) :
    getTest (updTest s n (fun u => { u with tstate := x })) n
      = (getTest s n).map (fun u => { u with tstate := x }) := by
  induction s with
  | nil => rfl
  | cons u rest ih =>
    by_cases h : (u.tid == n) = true
    · have h2 : u.tid = n := by simpa using h
      simp [updTest, getTest, List.find?_cons, h2]
    · simp only [Bool.not_eq_true] at h
      simp only [updTest, List.map_cons, h, Bool.false_eq_true, if_false]
      simp only [getTest, List.find?_cons, h] at ih ⊢
      exact ih

lemma getTest_updTest_pending (s : List TestM) (n : Nat) :
    getTest (updTest s n (fun u => { u with pending := true })) n
      = (getTest s n).map (fun u => { u with pending := true }) := by
  induction s with
  | nil => rfl
  | cons u rest ih =>
    by_cases h : (u.tid == n) = true
    · have h2 : u.tid = n := by simpa using h
      simp [updTest, getTest, List.find?_cons, h2]
    · simp only [Bool.not_eq_true] at h
      simp only [updTest, List.map_cons, h, Bool.false_eq_true, if_false]
      simp only [getTest, List.find?_cons, h] at ih ⊢
      exact ih

lemma getTest_append_right (s l2 : List TestM) (n : Nat)
    (h : ∀ u ∈ s, (u.tid == n) = false) :
    getTest (s ++ l2) n = getTest l2 n := by
  induction s with
  | nil => rfl
  | cons u rest ih =>
    have hu := h u (List.mem_cons_self u rest)
    simp only [List.cons_append, getTest, List.find?_cons, hu]
    exact ih (fun v hv => h v (List.mem_cons_of_mem u hv))

lemma ancestorPaths_nil : ancestorPaths [] = [[]] := rfl

lemma runTests_nil (cfg : RConfig) (fuel : Nat) (st : RState) (spath : Path)
    (hab : st.abortFlag = false) :
    runTestsF cfg (fuel + 1) st spath [] none = (st, none) := by
  simp [runTestsF, hab]

/-! ### Step lemmas for the test loop at the root suite

Each lemma executes one queue entry of runTests for a test sitting
directly under a root with no before-each or after-each hooks, no bail and
no pending flag, and relates the call to the continuation call on the rest
of the queue. -/

lemma runTests_retry_step (cfg : RConfig) (fuel : Nat) (st : RState) (tid : Nat)
    (rest : List Nat) (t : TestM)
    (hc : st.cur = []) (hbe : st.root.beforeEachH = []) (hae : st.root.afterEachH = [])
    (hbl : st.root.bail = false) (hsp2 : st.root.spending = false)
    (hab : st.abortFlag = false) (hd : cfg.dryRun = false)
    (ht : getTest st.store tid = some t) (hsp : t.spath = [])
    (htp : t.pending = false) (hm : cfg.grepMatch (joinTitle [] t.title) = true)
    (hb : t.behaviors.getD t.currentRetry .tpass = .terr)
    (hr : t.currentRetry < t.retries) :
    runTestsF cfg (fuel + 1) st [] (tid :: rest) none
      = runTestsF cfg fuel
          { root := st.root, store := st.store ++ [retryClone t st.nextId],
            cur := [], curT := some tid, failures := st.failures,
            abortFlag := st.abortFlag,
            events := st.events ++ [.testBegin tid, .retryE tid],
            nextId := st.nextId + 1 }
          [] (st.nextId :: rest) none := by
  have hb2 : t.behaviors[t.currentRetry]?.getD TestOutcome.tpass = TestOutcome.terr := by
    simpa [List.getD] using hb
  simp [runTestsF, runTestStep, bailOf, getSuite, hab, ht, testMatches, hsp,
    prefTitles, hm, isPendingT, htp, chainPending, hsp2, hbl, emit, hookDownF,
    hookUpF, hooksChain, hooksChainGo, ancestorPaths, runHookList, hd, runHookGo,
    suiteAt, suiteTitleAt, kindHooks, hbe, hae, hc, bodyOutcome, hb2, hr, cloneTest,
    List.append_assoc]

lemma runTests_pass_step (cfg : RConfig) (fuel : Nat) (st : RState) (tid : Nat)
    (rest : List Nat) (t : TestM)
    (hc : st.cur = []) (hbe : st.root.beforeEachH = []) (hae : st.root.afterEachH = [])
    (hbl : st.root.bail = false) (hsp2 : st.root.spending = false)
    (hab : st.abortFlag = false) (hd : cfg.dryRun = false)
    (ht : getTest st.store tid = some t) (hsp : t.spath = [])
    (htp : t.pending = false) (hm : cfg.grepMatch (joinTitle [] t.title) = true)
    (hb : t.behaviors.getD t.currentRetry .tpass = .tpass) :
    runTestsF cfg (fuel + 1) st [] (tid :: rest) none
      = runTestsF cfg fuel
          { root := slotRoot st.root t.retriedFrom tid,
            store := updTest st.store tid (fun u => { u with tstate := some TState.passed }),
            cur := [], curT := some tid, failures := st.failures,
            abortFlag := st.abortFlag,
            events := st.events ++ [.testBegin tid, .passE tid, .testEnd tid],
            nextId := st.nextId }
          [] rest none := by
  have hb2 : t.behaviors[t.currentRetry]?.getD TestOutcome.tpass = TestOutcome.tpass := by
    simpa [List.getD] using hb
  cases hrf : t.retriedFrom with
  | none =>
    simp [runTestsF, runTestStep, bailOf, getSuite, hab, ht, testMatches, hsp,
      prefTitles, hm, isPendingT, htp, chainPending, hsp2, hbl, emit, hookDownF,
      hookUpF, hooksChain, hooksChainGo, ancestorPaths, runHookList, hd, runHookGo,
      suiteAt, suiteTitleAt, kindHooks, hbe, hae, hc, bodyOutcome, hb2, setTState,
      emitTestEnd, getTest_updTest_tstate, hrf, slotRoot, List.append_assoc]
  | some o =>
    simp [runTestsF, runTestStep, bailOf, getSuite, hab, ht, testMatches, hsp,
      prefTitles, hm, isPendingT, htp, chainPending, hsp2, hbl, emit, hookDownF,
      hookUpF, hooksChain, hooksChainGo, ancestorPaths, runHookList, hd, runHookGo,
      suiteAt, suiteTitleAt, kindHooks, hbe, hae, hc, bodyOutcome, hb2, setTState,
      emitTestEnd, getTest_updTest_tstate, hrf, slotRoot, updateSuite,
      List.append_assoc]

lemma runTests_fail_step (cfg : RConfig) (fuel : Nat) (st : RState) (tid : Nat)
    (rest : List Nat) (t : TestM)
    (hc : st.cur = []) (hbe : st.root.beforeEachH = []) (hae : st.root.afterEachH = [])
    (hbl : st.root.bail = false) (hsp2 : st.root.spending = false)
    (hab : st.abortFlag = false) (hd : cfg.dryRun = false)
    (ht : getTest st.store tid = some t) (hsp : t.spath = [])
    (htp : t.pending = false) (hm : cfg.grepMatch (joinTitle [] t.title) = true)
    (hb : t.behaviors.getD t.currentRetry .tpass = .terr)
    (hnr : ¬ t.currentRetry < t.retries) :
    runTestsF cfg (fuel + 1) st [] (tid :: rest) none
      = runTestsF cfg fuel
          { root := slotRoot st.root t.retriedFrom tid,
            store := updTest st.store tid (fun u => { u with tstate := some TState.failed }),
            cur := [], curT := some tid, failures := st.failures + 1,
            abortFlag := st.abortFlag,
            events := st.events ++ [.testBegin tid, .failT tid, .testEnd tid],
            nextId := st.nextId }
          [] rest none := by
  have hb2 : t.behaviors[t.currentRetry]?.getD TestOutcome.tpass = TestOutcome.terr := by
    simpa [List.getD] using hb
  cases hrf : t.retriedFrom with
  | none =>
    simp [runTestsF, runTestStep, bailOf, getSuite, hab, ht, testMatches, hsp,
      prefTitles, hm, isPendingT, htp, chainPending, hsp2, hbl, emit, hookDownF,
      hookUpF, hooksChain, hooksChainGo, ancestorPaths, runHookList, hd, runHookGo,
      suiteAt, suiteTitleAt, kindHooks, hbe, hae, hc, bodyOutcome, hb2, hnr,
      failTest, emitTestEnd, getTest_updTest_tstate, hrf, slotRoot,
      List.append_assoc]
  | some o =>
    simp [runTestsF, runTestStep, bailOf, getSuite, hab, ht, testMatches, hsp,
      prefTitles, hm, isPendingT, htp, chainPending, hsp2, hbl, emit, hookDownF,
      hookUpF, hooksChain, hooksChainGo, ancestorPaths, runHookList, hd, runHookGo,
      suiteAt, suiteTitleAt, kindHooks, hbe, hae, hc, bodyOutcome, hb2, hnr,
      failTest, emitTestEnd, getTest_updTest_tstate, hrf, slotRoot, updateSuite,
      List.append_assoc]

lemma runTests_skip_step (cfg : RConfig) (fuel : Nat) (st : RState) (tid : Nat)
    (rest : List Nat) (t : TestM)
    (hc : st.cur = []) (hbe : st.root.beforeEachH = []) (hae : st.root.afterEachH = [])
    (hbl : st.root.bail = false) (hsp2 : st.root.spending = false)
    (hab : st.abortFlag = false) (hd : cfg.dryRun = false)
    (hfp : cfg.forbidPending = false)
    (ht : getTest st.store tid = some t) (hsp : t.spath = [])
    (htp : t.pending = false) (hm : cfg.grepMatch (joinTitle [] t.title) = true)
    (hb : t.behaviors.getD t.currentRetry .tpass = .tskip) :
    runTestsF cfg (fuel + 1) st [] (tid :: rest) none
      = runTestsF cfg fuel
          { root := slotRoot st.root t.retriedFrom tid,
            store := updTest (updTest st.store tid (fun u => { u with pending := true }))
              tid (fun u => { u with tstate := some TState.pending }),
            cur := [], curT := some tid, failures := st.failures,
            abortFlag := st.abortFlag,
            events := st.events ++ [.testBegin tid, .pendE tid, .testEnd tid],
            nextId := st.nextId }
          [] rest none := by
  have hb2 : t.behaviors[t.currentRetry]?.getD TestOutcome.tpass = TestOutcome.tskip := by
    simpa [List.getD] using hb
  cases hrf : t.retriedFrom with
  | none =>
    simp [runTestsF, runTestStep, bailOf, getSuite, hab, ht, testMatches, hsp,
      prefTitles, hm, isPendingT, htp, chainPending, hsp2, hbl, emit, hookDownF,
      hookUpF, hooksChain, hooksChainGo, ancestorPaths, runHookList, hd, runHookGo,
      suiteAt, suiteTitleAt, kindHooks, hbe, hae, hc, bodyOutcome, hb2, hfp,
      markTestPending, pendingEmit, setTState, emitTestEnd, getTest_updTest_tstate,
      getTest_updTest_pending, hrf, slotRoot, List.append_assoc]
  | some o =>
    simp [runTestsF, runTestStep, bailOf, getSuite, hab, ht, testMatches, hsp,
      prefTitles, hm, isPendingT, htp, chainPending, hsp2, hbl, emit, hookDownF,
      hookUpF, hooksChain, hooksChainGo, ancestorPaths, runHookList, hd, runHookGo,
      suiteAt, suiteTitleAt, kindHooks, hbe, hae, hc, bodyOutcome, hb2, hfp,
      markTestPending, pendingEmit, setTState, emitTestEnd, getTest_updTest_tstate,
      getTest_updTest_pending, hrf, slotRoot, updateSuite, List.append_assoc]

/-- A test under a plain root that fails k times and then passes within
its retry budget leaves the failure counter untouched and ends with a
passed test occupying the slot. -/
lemma runTests_eventually_pass :
    ∀ (k : Nat) (cfg : RConfig) (fuel : Nat) (st : RState) (tid : Nat) (t : TestM),
      st.cur = [] → st.root.beforeEachH = [] → st.root.afterEachH = [] →
      st.root.bail = false → st.root.spending = false → st.abortFlag = false →
      cfg.dryRun = false → getTest st.store tid = some t → t.spath = [] →
      t.pending = false → cfg.grepMatch (joinTitle [] t.title) = true →
      (∀ u ∈ st.store, u.tid < st.nextId) →
      (∀ i, i < k → t.behaviors.getD (t.currentRetry + i) .tpass = .terr) →
      t.behaviors.getD (t.currentRetry + k) .tpass = .tpass →
      t.currentRetry + k ≤ t.retries →
      ∃ stF lastId tl,
        runTestsF cfg (k + (fuel + 2)) st [] [tid] none = (stF, none)
        ∧ stF.failures = st.failures
        ∧ getTest stF.store lastId = some tl
        ∧ tl.tstate = some TState.passed
        ∧ tl.title = t.title := by
  intro k
  induction k with
  | zero =>
    intro cfg fuel st tid t hc hbe hae hbl hsp2 hab hd ht hsp htp hm hfresh hterr hpass hbud
    have hstep := runTests_pass_step cfg (fuel + 1) st tid [] t hc hbe hae hbl hsp2
      hab hd ht hsp htp hm (by simpa using hpass)
    refine ⟨{ root := slotRoot st.root t.retriedFrom tid, store := updTest st.store tid (fun u => { u with tstate := some TState.passed }), cur := [], curT := some tid, failures := st.failures, abortFlag := st.abortFlag, events := st.events ++ [.testBegin tid, .passE tid, .testEnd tid], nextId := st.nextId }, tid, { t with tstate := some TState.passed }, ?_, rfl, ?_, rfl, rfl⟩
    · rw [Nat.zero_add, show fuel + 2 = (fuel + 1) + 1 from rfl, hstep]
      exact runTests_nil cfg fuel _ [] hab
    · have h := getTest_updTest_tstate st.store tid (some TState.passed)
      rw [ht] at h
      exact h
  | succ k ih =>
    intro cfg fuel st tid t hc hbe hae hbl hsp2 hab hd ht hsp htp hm hfresh hterr hpass hbud
    have hr : t.currentRetry < t.retries := by omega
    have hb0 : t.behaviors.getD t.currentRetry .tpass = .terr := by
      have := hterr 0 (by omega)
      simpa using this
    have hstep := runTests_retry_step cfg (k + (fuel + 2)) st tid [] t hc hbe hae hbl
      hsp2 hab hd ht hsp htp hm hb0 hr
    have hfr : ∀ u ∈ st.store, (u.tid == st.nextId) = false := by
      intro u hu
      have := hfresh u hu
      simp only [beq_eq_false_iff_ne, ne_eq]
      omega
    have ht2 : getTest (st.store ++ [retryClone t st.nextId]) st.nextId
        = some (retryClone t st.nextId) := by
      rw [getTest_append_right _ _ _ hfr]
      simp [getTest, retryClone]
    obtain ⟨stF, lastId, tl, h1, h2, h3, h4, h5⟩ :=
      ih cfg fuel
        { root := st.root, store := st.store ++ [retryClone t st.nextId],
          cur := [], curT := some tid, failures := st.failures,
          abortFlag := st.abortFlag,
          events := st.events ++ [.testBegin tid, .retryE tid],
          nextId := st.nextId + 1 }
        st.nextId (retryClone t st.nextId)
        rfl hbe hae hbl hsp2 hab hd ht2 (by simp [retryClone, hsp])
        (by simp [retryClone]) (by simpa [retryClone] using hm)
        (by
          intro u hu
          rcases List.mem_append.mp hu with h | h
          · have := hfresh u h
            simp only []
            omega
          · simp only [List.mem_singleton] at h
            subst h
            simp [retryClone])
        (by
          intro i hi
          have := hterr (i + 1) (by omega)
          have harith : t.currentRetry + (i + 1) = t.currentRetry + 1 + i := by omega
          rw [harith] at this
          simpa [retryClone] using this)
        (by
          have harith : t.currentRetry + (k + 1) = t.currentRetry + 1 + k := by omega
          rw [harith] at hpass
          simpa [retryClone] using hpass)
        (by simp [retryClone]; omega)
    refine ⟨stF, lastId, tl, ?_, h2, h3, h4, by simpa [retryClone] using h5⟩
    have harith : (k + 1) + (fuel + 2) = (k + (fuel + 2)) + 1 := by omega
    rw [harith, hstep]
    exact h1

/-- Claim C2: a test body failure with currentRetry below the retry budget
clones the test with an incremented retry counter and its back reference,
inserts the clone at the front of the remaining queue, emits the retry
event and leaves the failure counter untouched; consequently a test that
eventually passes within its retry budget contributes nothing to the final
failure total and ends passed, as in scenario C (retries 2, two failures,
pass on the third attempt: two retry events, zero failures). -/
theorem claim_C2_thm :
    (∀ (cfg : RConfig) (fuel : Nat) (st : RState) (tid : Nat) (rest : List Nat) (t : TestM),
        st.cur = [] → st.root.beforeEachH = [] → st.root.afterEachH = [] →
        st.root.bail = false → st.root.spending = false → st.abortFlag = false →
        cfg.dryRun = false → getTest st.store tid = some t → t.spath = [] →
        t.pending = false → cfg.grepMatch (joinTitle [] t.title) = true →
        t.behaviors.getD t.currentRetry .tpass = .terr →
        t.currentRetry < t.retries →
        runTestsF cfg (fuel + 1) st [] (tid :: rest) none
          = runTestsF cfg fuel
              { root := st.root, store := st.store ++ [retryClone t st.nextId],
                cur := [], curT := some tid, failures := st.failures,
                abortFlag := st.abortFlag,
                events := st.events ++ [.testBegin tid, .retryE tid],
                nextId := st.nextId + 1 }
              [] (st.nextId :: rest) none)
    ∧ (∀ (k : Nat) (cfg : RConfig) (fuel : Nat) (st : RState) (tid : Nat) (t : TestM),
        st.cur = [] → st.root.beforeEachH = [] → st.root.afterEachH = [] →
        st.root.bail = false → st.root.spending = false → st.abortFlag = false →
        cfg.dryRun = false → getTest st.store tid = some t → t.spath = [] →
        t.pending = false → cfg.grepMatch (joinTitle [] t.title) = true →
        (∀ u ∈ st.store, u.tid < st.nextId) →
        (∀ i, i < k → t.behaviors.getD (t.currentRetry + i) .tpass = .terr) →
        t.behaviors.getD (t.currentRetry + k) .tpass = .tpass →
        t.currentRetry + k ≤ t.retries →
        ∃ stF lastId tl,
          runTestsF cfg (k + (fuel + 2)) st [] [tid] none = (stF, none)
          ∧ stF.failures = st.failures
          ∧ getTest stF.store lastId = some tl
          ∧ tl.tstate = some TState.passed
          ∧ tl.title = t.title)
    ∧ ((runF cfgAll 20 rootOne storeRetry).2 = 0
        ∧ (runF cfgAll 20 rootOne storeRetry).1.events.countP Ev.isRetryE = 2
        ∧ (runF cfgAll 20 rootOne storeRetry).1.events.countP Ev.isFailT = 0
        ∧ stateOf (runF cfgAll 20 rootOne storeRetry).1.store 2 = some TState.passed
        ∧ (runF cfgAll 20 rootOne storeRetry).1.root.tests = [2]) := by
  refine ⟨?_, ?_, by decide⟩
  · intro cfg fuel st tid rest t hc hbe hae hbl hsp2 hab hd ht hsp htp hm hb hr
    exact runTests_retry_step cfg fuel st tid rest t hc hbe hae hbl hsp2 hab hd ht
      hsp htp hm hb hr
  · intro k cfg fuel st tid t hc hbe hae hbl hsp2 hab hd ht hsp htp hm hfresh hterr
      hpass hbud
    exact runTests_eventually_pass k cfg fuel st tid t hc hbe hae hbl hsp2 hab hd ht
      hsp htp hm hfresh hterr hpass hbud

/-- Witness for C2: the retry step and the eventually-passing run applied
to the concrete scenario C test. -/
theorem claim_C2_wit :
    (runTestsF cfgAll 6 (initState rootOne storeRetry) [] [0] none
      = runTestsF cfgAll 5
          { root := (initState rootOne storeRetry).root,
            store := (initState rootOne storeRetry).store
              ++ [retryClone (mkTest 0 "t" [.terr, .terr, .tpass] 2 []) 1],
            cur := [], curT := some 0,
            failures := (initState rootOne storeRetry).failures,
            abortFlag := (initState rootOne storeRetry).abortFlag,
            events := (initState rootOne storeRetry).events
              ++ [.testBegin 0, .retryE 0],
            nextId := 2 }
          [] [1] none)
    ∧ (∃ stF lastId tl,
        runTestsF cfgAll (2 + (4 + 2)) (initState rootOne storeRetry) [] [0] none
          = (stF, none)
        ∧ stF.failures = (initState rootOne storeRetry).failures
        ∧ getTest stF.store lastId = some tl
        ∧ tl.tstate = some TState.passed
        ∧ tl.title = (mkTest 0 "t" [.terr, .terr, .tpass] 2 []).title) := by
  constructor
  · exact claim_C2_thm.1 cfgAll 5 (initState rootOne storeRetry) 0 []
      (mkTest 0 "t" [.terr, .terr, .tpass] 2 [])
      rfl rfl rfl rfl rfl rfl rfl (by decide) rfl rfl (by decide) (by decide)
      (by decide)
  · exact claim_C2_thm.2.1 2 cfgAll 4 (initState rootOne storeRetry) 0
      (mkTest 0 "t" [.terr, .terr, .tpass] 2 [])
      rfl rfl rfl rfl rfl rfl rfl (by decide) rfl rfl (by decide)
      (by decide) (by decide) (by decide) (by decide)

/-! ### Lemmas on pending marking and slot replacement -/

lemma isSome_getTest_updTest_pending (s : List TestM) (j n : Nat) :
    (getTest (updTest s j (fun u => { u with pending := true })) n).isSome
      = (getTest s n).isSome := by
  induction s with
  | nil => rfl
  | cons u rest ih =>
    simp only [updTest, List.map_cons, getTest, List.find?_cons]
    have htid : (if u.tid == j then { u with pending := true } else u).tid = u.tid := by
      cases h : (u.tid == j) <;> simp
    by_cases h : (u.tid == n) = true
    · rw [htid]
      simp [h]
    · simp only [Bool.not_eq_true] at h
      rw [htid]
      simp only [h]
      simpa [updTest, getTest] using ih

lemma pendingFlag_updTest_self (s : List TestM) (n : Nat)
    (h : (getTest s n).isSome = true) :
    pendingFlag (updTest s n (fun u => { u with pending := true })) n = true := by
  unfold pendingFlag
  rw [getTest_updTest_pending]
  cases hg : getTest s n with
  | none => rw [hg] at h; simp at h
  | some t => simp

lemma pendingFlag_updTest_mono (s : List TestM) (j n : Nat)
    (h : pendingFlag s n = true) :
    pendingFlag (updTest s j (fun u => { u with pending := true })) n = true := by
  induction s with
  | nil => simp [pendingFlag, getTest] at h
  | cons u rest ih =>
    have htid : (if u.tid == j then { u with pending := true } else u).tid = u.tid := by
      cases hj : (u.tid == j) <;> simp
    by_cases hn : (u.tid == n) = true
    · simp only [pendingFlag, getTest, List.find?_cons, hn] at h
      simp only [updTest, List.map_cons, pendingFlag, getTest, List.find?_cons, htid, hn]
      cases hj : (u.tid == j) <;> simp_all
    · simp only [Bool.not_eq_true] at hn
      simp only [pendingFlag, getTest, List.find?_cons, hn] at h
      simp only [updTest, List.map_cons, pendingFlag, getTest, List.find?_cons, htid, hn]
      simpa [updTest, pendingFlag, getTest] using ih (by simpa [pendingFlag, getTest] using h)

lemma foldMark_mono (ids : List Nat) :
    ∀ (s : List TestM) (n : Nat), pendingFlag s n = true →
      pendingFlag (ids.foldl
        (fun acc id => updTest acc id (fun t => { t with pending := true })) s) n = true := by
  induction ids with
  | nil => intro s n h; simpa using h
  | cons j rest ih =>
    intro s n h
    simp only [List.foldl_cons]
    exact ih _ n (pendingFlag_updTest_mono s j n h)

lemma foldMark_mem (ids : List Nat) :
    ∀ (s : List TestM) (n : Nat), n ∈ ids → (getTest s n).isSome = true →
      pendingFlag (ids.foldl
        (fun acc id => updTest acc id (fun t => { t with pending := true })) s) n = true := by
  induction ids with
  | nil => intro s n h; simp at h
  | cons j rest ih =>
    intro s n hmem hsome
    simp only [List.foldl_cons]
    rcases List.mem_cons.mp hmem with rfl | hrest
    · exact foldMark_mono rest _ n (pendingFlag_updTest_self s n hsome)
    · refine ih _ n hrest ?_
      rw [isSome_getTest_updTest_pending]
      exact hsome

lemma getSuite_updateSuite (p : Path) :
    ∀ (r : SuiteM) (f : SuiteM → SuiteM),
      getSuite (updateSuite r p f) p = (getSuite r p).map f := by
  induction p with
  | nil => intro r f; rfl
  | cons i p ih =>
    intro r f
    cases hi : r.suites[i]? with
    | none => simp [updateSuite, getSuite, hi]
    | some c =>
      have hlt : i < r.suites.length := by
        by_contra hge
        rw [List.getElem?_eq_none (by omega)] at hi
        exact Option.noConfusion hi
      simp only [updateSuite, hi, getSuite]
      rw [List.getElem?_set_self (by simpa using hlt)]
      simp [ih c f]

/-- Counterexample to C4 as stated: a conditional-skip signal raised from
a plain test body is not rejected as an unsupported-operation error; the
run records zero failures, emits no fail event and marks the test
pending. -/
theorem claim_C4_cex :
    (runF cfgAll 20 rootOne storeSkip).2 = 0
    ∧ ¬ ((runF cfgAll 20 rootOne storeSkip).2 = 1)
    ∧ (runF cfgAll 20 rootOne storeSkip).1.events.countP Ev.isFailT = 0
    ∧ stateOf (runF cfgAll 20 rootOne storeSkip).1.store 0 = some TState.pending
    ∧ Ev.pendE 0 ∈ (runF cfgAll 20 rootOne storeSkip).1.events := by
  decide

/-- Claim C4 as amended: only a conditional-skip signal raised from an
after-all hook is rejected as an unsupported-operation error and recorded
as a failure; a skip from a plain test body marks the test pending with a
pending event and no failure, and a skip from a before-all hook marks the
tests and the direct child suites of the suite pending without a
failure. -/
theorem claim_C4_thm :
    (∀ (cfg : RConfig) (st : RState) (s : SuiteM) (l : List HookOutcome),
        cfg.dryRun = false → suiteAt st = some s → s.afterAllH = .hskip :: l →
        runHookList cfg .afterAll st
          = ({ st with
                events := st.events
                  ++ [.hookBegin .afterAll s.title 0, .failH .afterAll s.title 0],
                failures := st.failures + 1 }, true))
    ∧ (∀ (cfg : RConfig) (fuel : Nat) (st : RState) (tid : Nat) (rest : List Nat) (t : TestM),
        st.cur = [] → st.root.beforeEachH = [] → st.root.afterEachH = [] →
        st.root.bail = false → st.root.spending = false → st.abortFlag = false →
        cfg.dryRun = false → cfg.forbidPending = false →
        getTest st.store tid = some t → t.spath = [] → t.pending = false →
        cfg.grepMatch (joinTitle [] t.title) = true →
        t.behaviors.getD t.currentRetry .tpass = .tskip →
        runTestsF cfg (fuel + 1) st [] (tid :: rest) none
          = runTestsF cfg fuel
              { root := slotRoot st.root t.retriedFrom tid,
                store := updTest (updTest st.store tid (fun u => { u with pending := true }))
                  tid (fun u => { u with tstate := some TState.pending }),
                cur := [], curT := some tid, failures := st.failures,
                abortFlag := st.abortFlag,
                events := st.events ++ [.testBegin tid, .pendE tid, .testEnd tid],
                nextId := st.nextId }
              [] rest none)
    ∧ (∀ (cfg : RConfig) (st : RState) (s : SuiteM) (l : List HookOutcome),
        cfg.dryRun = false → suiteAt st = some s → s.beforeAllH = .hskip :: l →
        runHookList cfg .beforeAll st
          = ({ st with
                store := s.tests.foldl
                  (fun acc id => updTest acc id (fun t => { t with pending := true }))
                  st.store,
                root := updateSuite st.root st.cur
                  (fun s2 => { s2 with
                    suites := s2.suites.map (fun c => { c with spending := true }) }),
                events := st.events
                  ++ [.hookBegin .beforeAll s.title 0, .hookEnd .beforeAll s.title 0] },
              false)
          ∧ (∀ id ∈ s.tests, (getTest st.store id).isSome = true →
              pendingFlag ((runHookList cfg .beforeAll st).1.store) id = true)
          ∧ getSuite ((runHookList cfg .beforeAll st).1.root) st.cur
              = some { s with suites := s.suites.map (fun c => { c with spending := true }) }
          ∧ (runHookList cfg .beforeAll st).1.failures = st.failures) := by
  refine ⟨?_, ?_, ?_⟩
  · intro cfg st s l hd hs ha
    simp [runHookList, hd, suiteTitleAt, hs, kindHooks, ha, runHookGo, emit, failHook,
      List.append_assoc]
  · intro cfg fuel st tid rest t hc hbe hae hbl hsp2 hab hd hfp ht hsp htp hm hb
    exact runTests_skip_step cfg fuel st tid rest t hc hbe hae hbl hsp2 hab hd hfp
      ht hsp htp hm hb
  · intro cfg st s l hd hs ha
    have hs2 : getSuite st.root st.cur = some s := by simpa [suiteAt] using hs
    have hmain : runHookList cfg .beforeAll st
        = ({ st with
              store := s.tests.foldl
                (fun acc id => updTest acc id (fun t => { t with pending := true }))
                st.store,
              root := updateSuite st.root st.cur
                (fun s2 => { s2 with
                  suites := s2.suites.map (fun c => { c with spending := true }) }),
              events := st.events
                ++ [.hookBegin .beforeAll s.title 0, .hookEnd .beforeAll s.title 0] },
            false) := by
      simp [runHookList, hd, suiteTitleAt, hs2, kindHooks, ha, runHookGo, emit,
        markSuitePendingAll, suiteAt, List.append_assoc]
    refine ⟨hmain, ?_, ?_, ?_⟩
    · intro id hid hsome
      rw [hmain]
      exact foldMark_mem s.tests st.store id hid hsome
    · rw [hmain]
      have h2 := getSuite_updateSuite st.cur st.root
        (fun s2 => { s2 with suites := s2.suites.map (fun c => { c with spending := true }) })
      rw [show ({ st with
            store := s.tests.foldl
              (fun acc id => updTest acc id (fun t => { t with pending := true }))
              st.store,
            root := updateSuite st.root st.cur
              (fun s2 => { s2 with
                suites := s2.suites.map (fun c => { c with spending := true }) }),
            events := st.events
              ++ [.hookBegin .beforeAll s.title 0, .hookEnd .beforeAll s.title 0] } : RState).root
          = updateSuite st.root st.cur
              (fun s2 => { s2 with
                suites := s2.suites.map (fun c => { c with spending := true }) }) from rfl]
      rw [h2, hs2]
      rfl
    · rw [hmain]

/-- Witness for C4: the three amended branches applied at concrete inputs:
an after-all skip fails the hook, a body skip makes the single test
pending, and a before-all skip marks the tests of the suite pending. -/
theorem claim_C4_wit :
    (runHookList cfgAll .afterAll
        { initState { title := "", afterAllH := [.hskip], tests := [], suites := [] } [] with cur := [] }
      = ({ { initState { title := "", afterAllH := [.hskip], tests := [], suites := [] } [] with cur := [] } with
            events := [.hookBegin .afterAll "" 0, .failH .afterAll "" 0],
            failures := 1 }, true))
    ∧ (pendingFlag ((runHookList cfgAll .beforeAll
        (initState { title := "", beforeAllH := [.hskip], tests := [0], suites := [] } storeSkip)).1.store) 0
        = true) := by
  constructor
  · have h := claim_C4_thm.1 cfgAll
      { initState { title := "", afterAllH := [.hskip], tests := [], suites := [] } [] with cur := [] }
      { title := "", afterAllH := [.hskip], tests := [], suites := [] } [] rfl rfl rfl
    simpa using h
  · exact (claim_C4_thm.2.2 cfgAll
      (initState { title := "", beforeAllH := [.hskip], tests := [0], suites := [] } storeSkip)
      { title := "", beforeAllH := [.hskip], tests := [0], suites := [] } [] rfl rfl rfl).2.1
      0 (by decide) (by decide)

/-- Claim C8: the test-end listener replaces the retried-from reference of
an ending clone in place in the parent suite test list: the parent tree is
updated at the clone suite path by mapping the original id to the clone id,
which preserves the list length and puts the clone at exactly the index of
the original (never appending); concretely, the middle of three tests that
retries once ends with the clone occupying index 1, the original running
exactly once and the clone passing. -/
theorem claim_C8_thm :
    (∀ (st : RState) (tid : Nat) (t : TestM) (o : Nat),
        getTest st.store tid = some t → t.retriedFrom = some o →
        (emitTestEnd st tid).root
            = updateSuite st.root t.spath
                (fun s => { s with tests := s.tests.map (fun x => if x == o then tid else x) })
          ∧ (emitTestEnd st tid).store = st.store
          ∧ (emitTestEnd st tid).events = st.events ++ [.testEnd tid])
    ∧ (∀ (l : List Nat) (i o tid : Nat), l[i]? = some o →
        (l.map (fun x => if x == o then tid else x))[i]? = some tid
          ∧ (l.map (fun x => if x == o then tid else x)).length = l.length)
    ∧ ((runF cfgAll 20 rootSlot storeSlot).1.root.tests = [0, 3, 2]
        ∧ (runF cfgAll 20 rootSlot storeSlot).1.events.countP
            (fun e => e == Ev.testBegin 1) = 1
        ∧ Ev.testBegin 3 ∈ (runF cfgAll 20 rootSlot storeSlot).1.events
        ∧ stateOf (runF cfgAll 20 rootSlot storeSlot).1.store 3 = some TState.passed
        ∧ (runF cfgAll 20 rootSlot storeSlot).2 = 0) := by
  refine ⟨?_, ?_, by decide⟩
  · intro st tid t o ht hrf
    refine ⟨?_, ?_, ?_⟩ <;> simp [emitTestEnd, ht, hrf, emit]
  · intro l i o tid hi
    constructor
    · rw [List.getElem?_map, hi]
      simp
    · simp

/-- Witness for C8: the listener applied to a concrete clone of the middle
slot test, and the index fact at the concrete list. -/
theorem claim_C8_wit :
    ((emitTestEnd (initState rootSlot (storeSlot ++ [cloneW])) 3).root
        = updateSuite (initState rootSlot (storeSlot ++ [cloneW])).root []
            (fun s => { s with tests := s.tests.map (fun x => if x == 1 then 3 else x) })
      ∧ (emitTestEnd (initState rootSlot (storeSlot ++ [cloneW])) 3).store
        = (initState rootSlot (storeSlot ++ [cloneW])).store
      ∧ (emitTestEnd (initState rootSlot (storeSlot ++ [cloneW])) 3).events
        = (initState rootSlot (storeSlot ++ [cloneW])).events ++ [.testEnd 3])
    ∧ (([0, 1, 2].map (fun x => if x == 1 then 3 else x))[1]? = some 3
        ∧ ([0, 1, 2].map (fun x => if x == 1 then 3 else x)).length = [0, 1, 2].length) := by
  constructor
  · exact claim_C8_thm.1 (initState rootSlot (storeSlot ++ [cloneW])) 3 cloneW 1
      (by decide) (by decide)
  · exact claim_C8_thm.2.1 [0, 1, 2] 1 1 3 (by decide)

end Rover
